import Mathlib

/-!
Shallow embedding of the Soroban asset-custody contract in
`src/AssetCustodySolution/contracts/hello-world/src/lib.rs`.

Modelling conventions:
* `Address` is abstracted to `Nat` (an opaque identity with decidable equality).
* The instance storage is an association list `List (Nat × CustodyAccount)`
  together with the `TOT_ACC` counter; `env.storage().instance().get/set` become
  `lookupAccount` / `setAccount`.
* A public entry point returns `Option (Bool × ContractState)`:
  `some (b, s)` models a normal return of `b` with post-state `s`, and `none`
  models a fatal abort (the host discards every pending write, so an aborted
  call produces no state at all).
* `owner.require_auth()` is the external authentication collaborator; it is
  assumed to pass (its failure aborts before any contract logic runs, so no
  claim depends on it).  `log!` and `extend_ttl(5000, 5000)` do not change the
  modelled state and are dropped.
* `i128` / `u64` values are `Int` / `Nat` with explicit range checks where the
  source performs arithmetic.
-/

set_option maxRecDepth 100000

/-- The stored record: direct translation of `struct CustodyAccount`
(`owner: Address`, `balance: i128`, `required_signatures: u32`,
`is_insured: bool`, `is_active: bool`). -/
structure CustodyAccount where
  owner : Nat
  balance : Int
  required_signatures : Nat
  is_insured : Bool
  is_active : Bool
  deriving DecidableEq, Repr

/-- Whole instance storage of the contract: the `CustodyBook::Account(addr)`
keyed records plus the `TOT_ACC` counter (read with `unwrap_or(0)`, so it is
total with initial value 0). -/
structure ContractState where
  accounts : List (Nat × CustodyAccount)
  totalAccounts : Nat
  deriving DecidableEq, Repr

/-- Initial storage: nothing stored yet, counter reads as 0. -/
def initState : ContractState := ⟨[], 0⟩

/-- Model of `env.storage().instance().get(&CustodyBook::Account(owner))`. -/
def lookupAccount : List (Nat × CustodyAccount) → Nat → Option CustodyAccount
  | [], _ => none
  | (k, v) :: rest, key => if k = key then some v else lookupAccount rest key

/-- Model of `env.storage().instance().set(&CustodyBook::Account(owner), ...)`:
replaces the record under the key, or stores a fresh one. -/
def setAccount : List (Nat × CustodyAccount) → Nat → CustodyAccount → List (Nat × CustodyAccount)
  | [], key, v => [(key, v)]
  | (k, w) :: rest, key, v =>
    if k = key then (key, v) :: rest else (k, w) :: setAccount rest key v

/-- Smallest `i128` value. -/
def I128_MIN : Int := -(2 ^ 127)

/-- Largest `i128` value. -/
def I128_MAX : Int := 2 ^ 127 - 1

/-- Largest `u64` value. -/
def U64_MAX : Nat := 2 ^ 64 - 1

/-- Modelled from the spec: the build profile (not under `src/`) decides what
Rust `+=` on `i128` does on overflow; per §4.2 "must not overflow the 128-bit
signed range — overflow is a fatal error", addition aborts when the exact sum
leaves the `i128` range. -/
def i128_checked_add (a b : Int) : Option Int :=
  if I128_MIN ≤ a + b ∧ a + b ≤ I128_MAX then some (a + b) else none

/-- Modelled from the spec: `i128` subtraction with the same fatal-overflow
semantics as [i128_checked_add]. -/
def i128_checked_sub (a b : Int) : Option Int :=
  if I128_MIN ≤ a - b ∧ a - b ≤ I128_MAX then some (a - b) else none

/-- Modelled from the spec: `u64` increment (`total += 1`) with fatal abort
when the counter would leave the unsigned 64-bit range. -/
def u64_checked_add (a b : Nat) : Option Nat :=
  if a + b ≤ U64_MAX then some (a + b) else none

/-- Translation of `create_custody_account` (lib.rs lines 32-77): duplicate
check first (soft `false`), then the `required_signatures < 2` fatal abort,
then store `balance = 0, is_active = true` and bump `TOT_ACC`. -/
def create_custody_account (s : ContractState) (owner : Nat)
    (required_signatures : Nat) (insurance : Bool) : Option (Bool × ContractState) :=
  match lookupAccount s.accounts owner with
  | some _ => some (false, s)
  | none =>
    if required_signatures < 2 then
      none
    else
      let new_account : CustodyAccount :=
        { owner := owner, balance := 0, required_signatures := required_signatures,
          is_insured := insurance, is_active := true }
      match u64_checked_add s.totalAccounts 1 with
      | none => none
      | some total =>
        some (true, { accounts := setAccount s.accounts owner new_account,
                      totalAccounts := total })

/-- Translation of `deposit_assets` (lib.rs lines 80-107): non-positive amount
is a soft `false`; a missing account aborts; an inactive account is a soft
`false`; otherwise `balance += amount` (fatal on overflow) is persisted. -/
def deposit_assets (s : ContractState) (owner : Nat) (amount : Int) :
    Option (Bool × ContractState) :=
  if amount ≤ 0 then
    some (false, s)
  else
    match lookupAccount s.accounts owner with
    | none => none
    | some account =>
      if account.is_active = false then
        some (false, s)
      else
        match i128_checked_add account.balance amount with
        | none => none
        | some newBalance =>
          let updated := { account with balance := newBalance }
          some (true, { s with accounts := setAccount s.accounts owner updated })

/-- Translation of `withdraw_assets` (lib.rs lines 110-155): non-positive
amount soft `false`; missing account aborts; inactive account soft `false`;
`signatures_count < required_signatures` aborts (before the balance check);
`balance < amount` soft `false`; otherwise `balance -= amount` is persisted. -/
def withdraw_assets (s : ContractState) (owner : Nat) (amount : Int)
    (signatures_count : Nat) : Option (Bool × ContractState) :=
  if amount ≤ 0 then
    some (false, s)
  else
    match lookupAccount s.accounts owner with
    | none => none
    | some account =>
      if account.is_active = false then
        some (false, s)
      else if signatures_count < account.required_signatures then
        none
      else if account.balance < amount then
        some (false, s)
      else
        match i128_checked_sub account.balance amount with
        | none => none
        | some newBalance =>
          let updated := { account with balance := newBalance }
          some (true, { s with accounts := setAccount s.accounts owner updated })

/-- Translation of `view_custody_account` (lib.rs lines 158-168): read-only
lookup, with a synthetic zero-valued inactive record when nothing is stored. -/
def view_custody_account (s : ContractState) (owner : Nat) : CustodyAccount :=
  match lookupAccount s.accounts owner with
  | some account => account
  | none =>
    { owner := owner, balance := 0, required_signatures := 0,
      is_insured := false, is_active := false }

/-- One public call of the contract, with its arguments. -/
inductive Op where
  | create (owner : Nat) (required_signatures : Nat) (insurance : Bool)
  | deposit (owner : Nat) (amount : Int)
  | withdraw (owner : Nat) (amount : Int) (signatures_count : Nat)
  deriving DecidableEq, Repr

/-- Dispatch one call against the state. -/
def applyOp (s : ContractState) : Op → Option (Bool × ContractState)
  | .create o rs ins => create_custody_account s o rs ins
  | .deposit o amt => deposit_assets s o amt
  | .withdraw o amt sc => withdraw_assets s o amt sc

/-- Run a sequence of calls, each as its own transaction: a fatal abort
discards every pending write of that call (host atomicity), so the state is
unchanged and later calls still run. -/
def runOps (s : ContractState) : List Op → ContractState
  | [] => s
  | op :: rest =>
    match applyOp s op with
    | none => runOps s rest
    | some (_, s₁) => runOps s₁ rest

/-- Invariant of the stored records: every account held in storage has a
non-negative balance, is active, and carries a multi-sig threshold of at
least 2. -/
def GoodAccounts (s : ContractState) : Prop :=
  ∀ k a, lookupAccount s.accounts k = some a →
    0 ≤ a.balance ∧ a.is_active = true ∧ 2 ≤ a.required_signatures

/-!
Helper lemmas about the store and inversion of successful calls.
-/

theorem lookupAccount_setAccount (l : List (Nat × CustodyAccount)) (k key : Nat)
    (v : CustodyAccount) :
    lookupAccount (setAccount l k v) key =
      if k = key then some v else lookupAccount l key := by
  induction l with
  | nil => by_cases h : k = key <;> simp [setAccount, lookupAccount, h]
  | cons hd tl ih =>
    obtain ⟨k₀, w⟩ := hd
    by_cases h₀ : k₀ = k
    · subst h₀
      by_cases h : k₀ = key <;> simp [setAccount, lookupAccount, h]
    · by_cases h : k₀ = key
      · subst h
        simp [setAccount, lookupAccount, h₀, ih]
        rw [if_neg (fun hh => h₀ hh.symm)]
      · simp [setAccount, lookupAccount, h₀, h, ih]

theorem create_success_inv {s s₁ : ContractState} {o rs : Nat} {ins : Bool}
    (h : create_custody_account s o rs ins = some (true, s₁)) :
    lookupAccount s.accounts o = none ∧ 2 ≤ rs ∧
      s₁ = ⟨setAccount s.accounts o ⟨o, 0, rs, ins, true⟩, s.totalAccounts + 1⟩ := by
  unfold create_custody_account at h
  cases hl : lookupAccount s.accounts o with
  | some a => rw [hl] at h; simp at h
  | none =>
    rw [hl] at h
    by_cases hrs : rs < 2
    · simp [hrs] at h
    · rw [if_neg hrs] at h
      unfold u64_checked_add at h
      by_cases ht : s.totalAccounts + 1 ≤ U64_MAX
      · rw [if_pos ht] at h
        simp at h
        exact ⟨rfl, by omega, h.symm⟩
      · rw [if_neg ht] at h
        simp at h

theorem deposit_success_inv {s s₁ : ContractState} {o : Nat} {amt : Int}
    (h : deposit_assets s o amt = some (true, s₁)) :
    0 < amt ∧ ∃ a, lookupAccount s.accounts o = some a ∧ a.is_active = true ∧
      I128_MIN ≤ a.balance + amt ∧ a.balance + amt ≤ I128_MAX ∧
      s₁ = ⟨setAccount s.accounts o { a with balance := a.balance + amt },
        s.totalAccounts⟩ := by
  unfold deposit_assets at h
  by_cases hamt : amt ≤ 0
  · simp [hamt] at h
  · rw [if_neg hamt] at h
    cases hl : lookupAccount s.accounts o with
    | none => rw [hl] at h; simp at h
    | some a =>
      rw [hl] at h
      dsimp only at h
      by_cases hact : a.is_active = false
      · simp [hact] at h
      · rw [if_neg hact] at h
        unfold i128_checked_add at h
        by_cases hrange : I128_MIN ≤ a.balance + amt ∧ a.balance + amt ≤ I128_MAX
        · rw [if_pos hrange] at h
          simp at h
          refine ⟨by omega, a, rfl, by simpa using hact, hrange.1, hrange.2, h.symm⟩
        · rw [if_neg hrange] at h
          simp at h

theorem withdraw_success_inv {s s₁ : ContractState} {o sc : Nat} {amt : Int}
    (h : withdraw_assets s o amt sc = some (true, s₁)) :
    0 < amt ∧ ∃ a, lookupAccount s.accounts o = some a ∧ a.is_active = true ∧
      a.required_signatures ≤ sc ∧ amt ≤ a.balance ∧
      s₁ = ⟨setAccount s.accounts o { a with balance := a.balance - amt },
        s.totalAccounts⟩ := by
  unfold withdraw_assets at h
  by_cases hamt : amt ≤ 0
  · simp [hamt] at h
  · rw [if_neg hamt] at h
    cases hl : lookupAccount s.accounts o with
    | none => rw [hl] at h; simp at h
    | some a =>
      rw [hl] at h
      dsimp only at h
      by_cases hact : a.is_active = false
      · simp [hact] at h
      · rw [if_neg hact] at h
        by_cases hsig : sc < a.required_signatures
        · simp [hsig] at h
        · rw [if_neg hsig] at h
          by_cases hbal : a.balance < amt
          · simp [hbal] at h
          · rw [if_neg hbal] at h
            unfold i128_checked_sub at h
            by_cases hrange : I128_MIN ≤ a.balance - amt ∧ a.balance - amt ≤ I128_MAX
            · rw [if_pos hrange] at h
              simp at h
              refine ⟨by omega, a, rfl, by simpa using hact, by omega, by omega, h.symm⟩
            · rw [if_neg hrange] at h
              simp at h

theorem create_state_cases {s s₁ : ContractState} {o rs : Nat} {ins b : Bool}
    (h : create_custody_account s o rs ins = some (b, s₁)) : s₁ = s ∨ b = true := by
  unfold create_custody_account at h
  cases hl : lookupAccount s.accounts o with
  | some a => rw [hl] at h; simp at h; exact Or.inl h.2.symm
  | none =>
    rw [hl] at h
    by_cases hrs : rs < 2
    · simp [hrs] at h
    · rw [if_neg hrs] at h
      cases ht : u64_checked_add s.totalAccounts 1 with
      | none => rw [ht] at h; simp at h
      | some t => rw [ht] at h; simp at h; exact Or.inr h.1

theorem deposit_state_cases {s s₁ : ContractState} {o : Nat} {amt : Int} {b : Bool}
    (h : deposit_assets s o amt = some (b, s₁)) : s₁ = s ∨ b = true := by
  unfold deposit_assets at h
  by_cases hamt : amt ≤ 0
  · simp [hamt] at h; exact Or.inl h.2.symm
  · rw [if_neg hamt] at h
    cases hl : lookupAccount s.accounts o with
    | none => rw [hl] at h; simp at h
    | some a =>
      rw [hl] at h
      dsimp only at h
      by_cases hact : a.is_active = false
      · simp [hact] at h; exact Or.inl h.2.symm
      · rw [if_neg hact] at h
        cases hc : i128_checked_add a.balance amt with
        | none => rw [hc] at h; simp at h
        | some nb => rw [hc] at h; simp at h; exact Or.inr h.1

theorem withdraw_state_cases {s s₁ : ContractState} {o sc : Nat} {amt : Int} {b : Bool}
    (h : withdraw_assets s o amt sc = some (b, s₁)) : s₁ = s ∨ b = true := by
  unfold withdraw_assets at h
  by_cases hamt : amt ≤ 0
  · simp [hamt] at h; exact Or.inl h.2.symm
  · rw [if_neg hamt] at h
    cases hl : lookupAccount s.accounts o with
    | none => rw [hl] at h; simp at h
    | some a =>
      rw [hl] at h
      dsimp only at h
      by_cases hact : a.is_active = false
      · simp [hact] at h; exact Or.inl h.2.symm
      · rw [if_neg hact] at h
        by_cases hsig : sc < a.required_signatures
        · simp [hsig] at h
        · rw [if_neg hsig] at h
          by_cases hbal : a.balance < amt
          · simp [hbal] at h; exact Or.inl h.2.symm
          · rw [if_neg hbal] at h
            cases hc : i128_checked_sub a.balance amt with
            | none => rw [hc] at h; simp at h
            | some nb => rw [hc] at h; simp at h; exact Or.inr h.1

theorem goodAccounts_create {s s₁ : ContractState} {o rs : Nat} {ins b : Bool}
    (hg : GoodAccounts s) (h : create_custody_account s o rs ins = some (b, s₁)) :
    GoodAccounts s₁ := by
  rcases create_state_cases h with heq | hb
  · rwa [heq]
  · subst hb
    obtain ⟨-, hrs, hs₁⟩ := create_success_inv h
    subst hs₁
    intro k a hk
    rw [lookupAccount_setAccount] at hk
    by_cases hko : o = k
    · rw [if_pos hko] at hk
      cases hk
      exact ⟨le_refl 0, rfl, hrs⟩
    · rw [if_neg hko] at hk
      exact hg k a hk

theorem goodAccounts_deposit {s s₁ : ContractState} {o : Nat} {amt : Int} {b : Bool}
    (hg : GoodAccounts s) (h : deposit_assets s o amt = some (b, s₁)) :
    GoodAccounts s₁ := by
  rcases deposit_state_cases h with heq | hb
  · rwa [heq]
  · subst hb
    obtain ⟨hpos, a, hla, hact, -, -, hs₁⟩ := deposit_success_inv h
    subst hs₁
    intro k x hk
    rw [lookupAccount_setAccount] at hk
    by_cases hko : o = k
    · rw [if_pos hko] at hk
      cases hk
      obtain ⟨hbal, -, hrs⟩ := hg o a hla
      exact ⟨by simp; omega, hact, hrs⟩
    · rw [if_neg hko] at hk
      exact hg k x hk

theorem goodAccounts_withdraw {s s₁ : ContractState} {o sc : Nat} {amt : Int} {b : Bool}
    (hg : GoodAccounts s) (h : withdraw_assets s o amt sc = some (b, s₁)) :
    GoodAccounts s₁ := by
  rcases withdraw_state_cases h with heq | hb
  · rwa [heq]
  · subst hb
    obtain ⟨hpos, a, hla, hact, -, hle, hs₁⟩ := withdraw_success_inv h
    subst hs₁
    intro k x hk
    rw [lookupAccount_setAccount] at hk
    by_cases hko : o = k
    · rw [if_pos hko] at hk
      cases hk
      obtain ⟨hbal, -, hrs⟩ := hg o a hla
      exact ⟨by simp; omega, hact, hrs⟩
    · rw [if_neg hko] at hk
      exact hg k x hk

theorem goodAccounts_applyOp {s s₁ : ContractState} {op : Op} {b : Bool}
    (hg : GoodAccounts s) (h : applyOp s op = some (b, s₁)) : GoodAccounts s₁ := by
  cases op with
  | create o rs ins => exact goodAccounts_create hg h
  | deposit o amt => exact goodAccounts_deposit hg h
  | withdraw o amt sc => exact goodAccounts_withdraw hg h

theorem goodAccounts_runOps (ops : List Op) {s : ContractState}
    (hg : GoodAccounts s) : GoodAccounts (runOps s ops) := by
  induction ops generalizing s with
  | nil => exact hg
  | cons op rest ih =>
    unfold runOps
    cases h : applyOp s op with
    | none => exact ih hg
    | some r =>
      obtain ⟨b, s₁⟩ := r
      exact ih (goodAccounts_applyOp hg h)

theorem goodAccounts_init : GoodAccounts initState := by
  intro k a hk
  simp [initState, lookupAccount] at hk

theorem goodAccounts_reachable (ops : List Op) : GoodAccounts (runOps initState ops) :=
  goodAccounts_runOps ops goodAccounts_init

/-!
Claim theorems.
-/

/-- C1: for every sequence of public operations run from the initial state,
every account held in storage has a non-negative balance — accounts are
created with balance 0, deposits add only positive amounts, and withdrawals
subtract only amounts bounded by the balance. -/
theorem balance_nonneg_of_reachable (ops : List Op) (k : Nat) (a : CustodyAccount)
    (hk : lookupAccount (runOps initState ops).accounts k = some a) :
    0 ≤ a.balance :=
  (goodAccounts_reachable ops k a hk).1

theorem balance_nonneg_of_reachable_witness :
    0 ≤ (CustodyAccount.mk 7 0 2 true true).balance :=
  balance_nonneg_of_reachable [Op.create 7 2 true] 7 ⟨7, 0, 2, true, true⟩ (by decide)

/-- C2 counterexample: the duplicate-account check runs before the
threshold check, so on a state where owner 0 already has an account (reachable
by one valid creation), `create_custody_account` with `required_signatures = 1`
returns `false` instead of aborting, and the record stays stored — refuting
"for every owner ... always aborts fatally ... and leaves no record". -/
theorem create_low_threshold_existing_no_abort :
    create_custody_account (runOps initState [Op.create 0 2 true]) 0 1 true =
      some (false, runOps initState [Op.create 0 2 true]) ∧
    (lookupAccount (runOps initState [Op.create 0 2 true]).accounts 0).isSome = true := by
  decide

/-- C2 (amended): for every owner with no stored account, calling
`create_custody_account` with `required_signatures < 2` aborts fatally (it
never returns `false` or `true`), and run as a transaction it leaves the
state — in particular the absence of a record for the owner — unchanged. -/
theorem create_low_threshold_fresh_aborts (s : ContractState) (owner rs : Nat) (ins : Bool)
    (hnone : lookupAccount s.accounts owner = none) (hlt : rs < 2) :
    create_custody_account s owner rs ins = none ∧
      runOps s [Op.create owner rs ins] = s := by
  have h : create_custody_account s owner rs ins = none := by
    unfold create_custody_account
    rw [hnone, if_pos hlt]
  exact ⟨h, by simp [runOps, applyOp, h]⟩

theorem create_low_threshold_fresh_aborts_witness :
    create_custody_account initState 5 1 false = none ∧
      runOps initState [Op.create 5 1 false] = initState :=
  create_low_threshold_fresh_aborts initState 5 1 false (by decide) (by decide)

/-- C3: on every reachable state, a withdrawal of a positive amount with
fewer signatures than the account's threshold aborts fatally, whatever the
balance is — the signature gate fires before the balance check, so no balance
hypothesis is needed. -/
theorem withdraw_insufficient_sigs_aborts (ops : List Op) (owner : Nat) (amount : Int)
    (sc : Nat) (a : CustodyAccount)
    (hacc : lookupAccount (runOps initState ops).accounts owner = some a)
    (hpos : 0 < amount) (hsig : sc < a.required_signatures) :
    withdraw_assets (runOps initState ops) owner amount sc = none := by
  obtain ⟨-, hact, -⟩ := goodAccounts_reachable ops owner a hacc
  unfold withdraw_assets
  rw [if_neg (by omega), hacc]
  dsimp only
  rw [if_neg (by simp [hact]), if_pos hsig]

theorem withdraw_insufficient_sigs_aborts_witness :
    withdraw_assets (runOps initState [Op.create 3 2 true]) 3 5 1 = none :=
  withdraw_insufficient_sigs_aborts [Op.create 3 2 true] 3 5 1 ⟨3, 0, 2, true, true⟩
    (by decide) (by decide) (by decide)

/-- C4: for an existing active account, a withdrawal of a positive amount with
enough signatures but `amount > balance` returns `false` and leaves the whole
state (in particular the stored account) unchanged. -/
theorem withdraw_insufficient_balance_soft_reject (s : ContractState) (owner : Nat)
    (amount : Int) (sc : Nat) (a : CustodyAccount)
    (hacc : lookupAccount s.accounts owner = some a) (hact : a.is_active = true)
    (hpos : 0 < amount) (hsig : a.required_signatures ≤ sc) (hbal : a.balance < amount) :
    withdraw_assets s owner amount sc = some (false, s) := by
  unfold withdraw_assets
  rw [if_neg (by omega), hacc]
  dsimp only
  rw [if_neg (by simp [hact]), if_neg (by omega), if_pos hbal]

theorem withdraw_insufficient_balance_soft_reject_witness :
    withdraw_assets ⟨[(1, ⟨1, 10, 2, false, true⟩)], 1⟩ 1 11 2 =
      some (false, ⟨[(1, ⟨1, 10, 2, false, true⟩)], 1⟩) :=
  withdraw_insufficient_balance_soft_reject ⟨[(1, ⟨1, 10, 2, false, true⟩)], 1⟩ 1 11 2
    ⟨1, 10, 2, false, true⟩ (by decide) rfl (by decide) (by decide) (by decide)

/-- C5: after a first successful creation, a second creation for the same
owner returns `false` and changes nothing (the returned state is `s₁`
itself), the stored record is the one written by the first creation, and the
`TotalAccounts` counter was incremented exactly once, by the first call. -/
theorem create_duplicate_second_call (s s₁ : ContractState) (owner rs : Nat) (ins : Bool)
    (rs₂ : Nat) (ins₂ : Bool)
    (hfirst : create_custody_account s owner rs ins = some (true, s₁)) :
    create_custody_account s₁ owner rs₂ ins₂ = some (false, s₁) ∧
      lookupAccount s₁.accounts owner = some ⟨owner, 0, rs, ins, true⟩ ∧
      s₁.totalAccounts = s.totalAccounts + 1 := by
  obtain ⟨hnone, hrs, hs₁⟩ := create_success_inv hfirst
  subst hs₁
  have hl : lookupAccount (setAccount s.accounts owner ⟨owner, 0, rs, ins, true⟩) owner =
      some ⟨owner, 0, rs, ins, true⟩ := by
    rw [lookupAccount_setAccount, if_pos rfl]
  refine ⟨?_, hl, rfl⟩
  unfold create_custody_account
  dsimp only
  rw [hl]

theorem create_duplicate_second_call_witness :
    create_custody_account ⟨[(2, ⟨2, 0, 2, true, true⟩)], 1⟩ 2 3 false =
      some (false, ⟨[(2, ⟨2, 0, 2, true, true⟩)], 1⟩) ∧
    lookupAccount (ContractState.mk [(2, ⟨2, 0, 2, true, true⟩)] 1).accounts 2 =
      some ⟨2, 0, 2, true, true⟩ ∧
    (ContractState.mk [(2, ⟨2, 0, 2, true, true⟩)] 1).totalAccounts =
      initState.totalAccounts + 1 :=
  create_duplicate_second_call initState ⟨[(2, ⟨2, 0, 2, true, true⟩)], 1⟩ 2 2 true 3 false
    (by decide)

/-- C6: a deposit of a non-positive amount returns `false` with the state
passed back untouched — no stored balance (nor anything else) changes. -/
theorem deposit_nonpositive_no_mutation (s : ContractState) (owner : Nat) (amount : Int)
    (hamt : amount ≤ 0) : deposit_assets s owner amount = some (false, s) := by
  unfold deposit_assets
  rw [if_pos hamt]

theorem deposit_nonpositive_no_mutation_witness :
    deposit_assets initState 4 (-3) = some (false, initState) :=
  deposit_nonpositive_no_mutation initState 4 (-3) (by decide)

/-- C7: on a fresh account (created in this run, so `balance = 0`), a
successful deposit of `d` followed by a successful withdrawal of `w` leaves
`view_custody_account` reporting `balance = d - w` (success of the withdrawal
already entails `w ≤ d` and a sufficient signature count). -/
theorem deposit_withdraw_round_trip (s s₁ s₂ s₃ : ContractState) (owner rs sc : Nat)
    (ins : Bool) (d w : Int)
    (hcreate : create_custody_account s owner rs ins = some (true, s₁))
    (hdep : deposit_assets s₁ owner d = some (true, s₂))
    (hwit : withdraw_assets s₂ owner w sc = some (true, s₃)) :
    (view_custody_account s₃ owner).balance = d - w := by
  obtain ⟨hnone, hrs, hs₁⟩ := create_success_inv hcreate
  subst hs₁
  obtain ⟨hd, a, hla, hact, -, -, hs₂⟩ := deposit_success_inv hdep
  subst hs₂
  obtain ⟨hw, a₂, hla₂, hact₂, -, hle, hs₃⟩ := withdraw_success_inv hwit
  subst hs₃
  dsimp only at hla hla₂
  rw [lookupAccount_setAccount, if_pos rfl] at hla
  rw [lookupAccount_setAccount, if_pos rfl] at hla₂
  simp only [Option.some.injEq] at hla hla₂
  unfold view_custody_account
  dsimp only
  rw [lookupAccount_setAccount, if_pos rfl]
  rw [← hla₂, ← hla]
  dsimp only
  omega

theorem deposit_withdraw_round_trip_witness :
    (view_custody_account ⟨[(1, ⟨1, 70, 2, false, true⟩)], 1⟩ 1).balance = 100 - 30 :=
  deposit_withdraw_round_trip initState ⟨[(1, ⟨1, 0, 2, false, true⟩)], 1⟩
    ⟨[(1, ⟨1, 100, 2, false, true⟩)], 1⟩ ⟨[(1, ⟨1, 70, 2, false, true⟩)], 1⟩
    1 2 2 false 100 30 (by decide) (by decide) (by decide)

/-- C8: for an owner with no stored record, `view_custody_account` returns the
synthetic account carrying the queried owner with zero balance, zero
threshold, uninsured and inactive; by its type the function only reads the
state and returns a record, so no state is mutated. -/
theorem view_missing_account_synthetic (s : ContractState) (owner : Nat)
    (hnone : lookupAccount s.accounts owner = none) :
    view_custody_account s owner = ⟨owner, 0, 0, false, false⟩ := by
  unfold view_custody_account
  rw [hnone]

theorem view_missing_account_synthetic_witness :
    view_custody_account initState 9 = ⟨9, 0, 0, false, false⟩ :=
  view_missing_account_synthetic initState 9 (by decide)

/-- C9: for an existing active account and a positive amount, a deposit whose
exact sum stays in the `i128` range succeeds and stores exactly
`old balance + amount`; when the sum exceeds the `i128` maximum the call
aborts fatally (it neither wraps nor returns a boolean). -/
theorem deposit_success_or_overflow_abort (s : ContractState) (owner : Nat) (amount : Int)
    (a : CustodyAccount) (hacc : lookupAccount s.accounts owner = some a)
    (hact : a.is_active = true) (hpos : 0 < amount) (hlow : I128_MIN ≤ a.balance) :
    (a.balance + amount ≤ I128_MAX →
      deposit_assets s owner amount =
        some (true, ⟨setAccount s.accounts owner { a with balance := a.balance + amount },
          s.totalAccounts⟩)) ∧
    (I128_MAX < a.balance + amount → deposit_assets s owner amount = none) := by
  constructor
  · intro hmax
    unfold deposit_assets
    rw [if_neg (by omega), hacc]
    dsimp only
    rw [if_neg (by simp [hact])]
    unfold i128_checked_add
    rw [if_pos ⟨by linarith, hmax⟩]
  · intro hover
    unfold deposit_assets
    rw [if_neg (by omega), hacc]
    dsimp only
    rw [if_neg (by simp [hact])]
    unfold i128_checked_add
    rw [if_neg (fun hh => absurd hh.2 (not_le.mpr hover))]

theorem deposit_success_or_overflow_abort_witness :
    ((5 : Int) + 7 ≤ I128_MAX →
      deposit_assets ⟨[(0, ⟨0, 5, 2, false, true⟩)], 1⟩ 0 7 =
        some (true, ⟨[(0, ⟨0, 12, 2, false, true⟩)], 1⟩)) ∧
    (I128_MAX < (5 : Int) + 7 →
      deposit_assets ⟨[(0, ⟨0, 5, 2, false, true⟩)], 1⟩ 0 7 = none) :=
  deposit_success_or_overflow_abort ⟨[(0, ⟨0, 5, 2, false, true⟩)], 1⟩ 0 7
    ⟨0, 5, 2, false, true⟩ (by decide) rfl (by decide) (by decide)

/-- C10: every account reachable in storage through the public operations has
`is_active = true` and a signature threshold of at least 2 — exactly the
conditions under which the inactive-account soft-rejection branches of
`deposit_assets` and `withdraw_assets` can never fire on a stored account. -/
theorem reachable_accounts_active_multisig (ops : List Op) (k : Nat) (a : CustodyAccount)
    (hk : lookupAccount (runOps initState ops).accounts k = some a) :
    a.is_active = true ∧ 2 ≤ a.required_signatures :=
  (goodAccounts_reachable ops k a hk).2

theorem reachable_accounts_active_multisig_witness :
    (CustodyAccount.mk 6 0 3 false true).is_active = true ∧
      2 ≤ (CustodyAccount.mk 6 0 3 false true).required_signatures :=
  reachable_accounts_active_multisig [Op.create 6 3 false] 6 ⟨6, 0, 3, false, true⟩
    (by decide)
